import Mathlib

/-!
Verification development for the LiveSplit.UnleashedRecompiled autosplitter.

The embedding translates the two source files:
  * `src/client_layer.rs` — the multi-hop host-memory path reader;
  * `src/lib.rs`          — memory probe, update loop, decision functions.

Machine integers are modelled as `Nat` (addresses never overflow in the
claims under consideration); `f32` values are modelled as an exact rational
together with a NaN flag; `asr::time::Duration` is modelled as a whole
number of milliseconds (every duration the code constructs is a whole number
of milliseconds).
-/

namespace Unleashed

/-- Byte-swap of a 32-bit value: `u32::from_be` / `FromEndian::from_be`.
Bits above the low 32 are ignored, as a `u32` has none. -/
def fromBe32 (n : Nat) : Nat :=
  (n % 256) * 16777216 + (n / 256 % 256) * 65536 + (n / 65536 % 256) * 256
    + (n / 16777216 % 256)

/-- Model of an `f32` value: a NaN flag plus an exact rational value.
(The claims never depend on rounding of float arithmetic, only on the
sign / NaN tests and the scale-and-truncate step.) -/
structure F32 where
  isNan : Bool
  val : ℚ
deriving DecidableEq

/-- `f32::from_be`: byte-order conversion.  The model represents an `f32`
read directly by its decoded (post-byte-swap) value, so the conversion is
the identity on the model. -/
def F32.from_be (v : F32) : F32 := v

/-- The foreign process (`asr::Process`): typed random-access reads at
absolute addresses, each of which may fail.  `readU32`/`readU8` return the
numeric value of the bytes in native (little-endian) interpretation, so a
big-endian wire value still needs `fromBe32`. -/
structure Process where
  readU32 : Nat → Option Nat
  readU8 : Nat → Option Nat
  readF32 : Nat → Option F32

/-- `slice::split_last`: the last element together with the initial
segment; `none` on the empty slice. -/
def splitLast {α : Type} : List α → Option (α × List α)
  | [] => none
  | [x] => some (x, [])
  | x :: y :: rest =>
    match splitLast (y :: rest) with
    | none => none
    | some (last, path) => some (last, x :: path)

/-- The `for &offset in path` loop of `read_host_path`: at each hop read a
32-bit value at `address + offset`, convert it from big-endian, and
re-anchor to `base_address + value`.  A failed read aborts with `none`. -/
def hopLoop (process : Process) (base_address : Nat) :
    Nat → List Nat → Option Nat
  | address, [] => some address
  | address, offset :: rest =>
    match process.readU32 (address + offset) with
    | none => none
    | some u => hopLoop process base_address (base_address + fromBe32 u) rest

/-- `client_layer::read_host_path::<T>`: split the offsets into the hop
path and the final offset; run the hop loop from the base address; read a
`T` at `last resolved address + final offset`.  The generic typed read
`process.read::<T>` is passed in as `readT`. -/
def read_host_path {T : Type} (process : Process) (readT : Nat → Option T)
    (base_address : Nat) (offsets : List Nat) : Option T :=
  match splitLast offsets with
  | none => none
  | some (last, path) =>
    match hopLoop process base_address base_address path with
    | none => none
    | some address => readT (address + last)

/-- Spec-side address resolution, following the claim's words: start at the
base address and, for each offset except the last, read a 32-bit big-endian
pointer value at (current address + offset) and re-anchor to (original base
address + that value) — never chaining from the previous resolved
address. -/
def specResolveAddr (readU32 : Nat → Option Nat) (base : Nat)
    (hops : List Nat) : Option Nat :=
  hops.foldl
    (fun acc offset =>
      acc.bind fun addr => (readU32 (addr + offset)).map fun v => base + fromBe32 v)
    (some base)

/-- Spec-side path read, following the claim's words: nothing for an empty
offset sequence; otherwise resolve the address through all offsets but the
last and read the typed value at (last resolved address + final offset). -/
def specReadPath {T : Type} (readU32 : Nat → Option Nat)
    (readT : Nat → Option T) (base : Nat) (offsets : List Nat) : Option T :=
  if h : offsets = [] then none
  else
    (specResolveAddr readU32 base offsets.dropLast).bind
      fun addr => readT (addr + offsets.getLast h)

lemma splitLast_eq_getLast_dropLast {α : Type} :
    ∀ (l : List α) (h : l ≠ []), splitLast l = some (l.getLast h, l.dropLast)
  | [], h => absurd rfl h
  | [x], _ => rfl
  | x :: y :: rest, _ => by
    rw [splitLast, splitLast_eq_getLast_dropLast (y :: rest) (by simp)]
    simp [List.getLast]

lemma foldl_bind_none {α : Type} (f : Nat → α → Option Nat) :
    ∀ hops : List α,
      hops.foldl (fun acc offset => acc.bind fun addr => f addr offset) none = none
  | [] => rfl
  | _ :: rest => by
    simpa using foldl_bind_none f rest

lemma hopLoop_eq_specResolve (process : Process) (base : Nat) :
    ∀ (hops : List Nat) (address : Nat),
      hopLoop process base address hops =
        hops.foldl
          (fun acc offset =>
            acc.bind fun addr =>
              (process.readU32 (addr + offset)).map fun v => base + fromBe32 v)
          (some address)
  | [], _ => rfl
  | offset :: rest, address => by
    rw [hopLoop]
    cases h : process.readU32 (address + offset) with
    | none =>
      simp only [List.foldl_cons, Option.some_bind, h, Option.map_none']
      exact (foldl_bind_none _ rest).symm
    | some u =>
      simp only [List.foldl_cons, Option.some_bind, h, Option.map_some']
      exact hopLoop_eq_specResolve process base rest (base + fromBe32 u)

lemma read_host_path_eq {T : Type} (process : Process) (readT : Nat → Option T)
    (base : Nat) (offsets : List Nat) (last : Nat) (path : List Nat)
    (h : splitLast offsets = some (last, path)) :
    read_host_path process readT base offsets =
      match hopLoop process base base path with
      | none => none
      | some address => readT (address + last) := by
  rw [read_host_path, h]

/-- C1: for every non-empty offset sequence, `read_host_path` resolves the
path by starting at the base address and, for each offset except the last,
reading a 32-bit big-endian pointer at (current address + offset) and
re-anchoring to (original base address + that value) — never chaining from
the previous resolved address — then returns exactly the typed value stored
at (last resolved address + final offset) when all reads succeed; for an
empty offset sequence it returns nothing.  Stated as: `read_host_path`
coincides with the spec-side `specReadPath` on every input. -/
theorem read_host_path_refines_spec {T : Type} (process : Process)
    (readT : Nat → Option T) (base : Nat) (offsets : List Nat) :
    read_host_path process readT base offsets =
      specReadPath process.readU32 readT base offsets := by
  by_cases h : offsets = []
  · subst h; rfl
  · rw [read_host_path_eq process readT base offsets (offsets.getLast h)
      offsets.dropLast (splitLast_eq_getLast_dropLast offsets h)]
    simp only [specReadPath, specResolveAddr, dif_neg h]
    rw [← hopLoop_eq_specResolve process base offsets.dropLast base]
    cases hopLoop process base base offsets.dropLast <;> rfl

/-- C2: if any intermediate pointer read or the final typed read in
`read_host_path` fails, the whole call returns nothing (never a partial
address or default value); in particular for offsets `[A, B, C]` with a
failing read at `base + A` the result is nothing regardless of later
memory contents. -/
theorem read_host_path_fails_to_none :
    (∀ {T : Type} (process : Process) (readT : Nat → Option T)
        (base : Nat) (offsets : List Nat) (last : Nat) (path : List Nat),
      splitLast offsets = some (last, path) →
      hopLoop process base base path = none →
      read_host_path process readT base offsets = none)
    ∧ (∀ {T : Type} (process : Process) (readT : Nat → Option T)
        (base : Nat) (offsets : List Nat) (last : Nat) (path : List Nat)
        (address : Nat),
      splitLast offsets = some (last, path) →
      hopLoop process base base path = some address →
      readT (address + last) = none →
      read_host_path process readT base offsets = none)
    ∧ (∀ {T : Type} (process : Process) (readT : Nat → Option T)
        (base A B C : Nat),
      process.readU32 (base + A) = none →
      read_host_path process readT base [A, B, C] = none) := by
  refine ⟨?_, ?_, ?_⟩
  · intro T process readT base offsets last path hsplit hhop
    rw [read_host_path_eq process readT base offsets last path hsplit, hhop]
  · intro T process readT base offsets last path address hsplit hhop hread
    rw [read_host_path_eq process readT base offsets last path hsplit, hhop]
    exact hread
  · intro T process readT base A B C hfail
    have h1 : hopLoop process base base [A, B] = none := by rw [hopLoop, hfail]
    rw [read_host_path_eq process readT base [A, B, C] C [A, B] rfl, h1]

/-- A process all of whose reads fail, for concrete witnesses. -/
def deadProcess : Process :=
  { readU32 := fun _ => none, readU8 := fun _ => none, readF32 := fun _ => none }

/-- Witness for C2: on a process whose reads all fail, the three-offset
path read concretely returns nothing. -/
theorem read_host_path_fails_to_none_witness :
    read_host_path deadProcess deadProcess.readU8 0 [1, 2, 3] = none :=
  read_host_path_fails_to_none.2.2 deadProcess deadProcess.readU8 0 1 2 3 rfl

/-- One mapped memory region of the foreign process, as yielded by
`Process::memory_ranges` (the external capability enumerates regions with
their address and size). -/
structure MemoryRange where
  address : Nat
  size : Nat
deriving DecidableEq

/-- The probe's result: the discovered anchor address. -/
structure Memory where
  base_client_ptr : Nat
deriving DecidableEq

/-- The scan loop inside `Memory::init`: holding the current region, walk
the remaining enumeration.  A region of size `0x1000` whose immediately
following region has size `0xFFFFF000` yields the first region's start
address; reaching the end of the enumeration (`ranges.next()` returning
nothing, in either branch) ends the attempt with no result. -/
def scanLoop : MemoryRange → List MemoryRange → Option Memory
  | _, [] => none
  | range, range2 :: rest2 =>
    if range.size = 0x1000 then
      if range2.size = 0xFFFFF000 then some { base_client_ptr := range.address }
      else scanLoop range2 rest2
    else scanLoop range2 rest2

/-- One attempt of `Memory::init`: take the first region and run the scan
loop; an empty enumeration fails immediately.  (The `retry` wrapping —
re-running the attempt on the next scheduling tick until it succeeds — is
the external `asr::future::retry` combinator.) -/
def Memory.init (ranges : List MemoryRange) : Option Memory :=
  match ranges with
  | [] => none
  | range :: rest => scanLoop range rest

/-- Position `i` of the enumeration starts an adjacent pair of regions of
sizes `0x1000` and `0xFFFFF000`. -/
def pairAt (ranges : List MemoryRange) (i : Nat) : Prop :=
  ∃ r r2, ranges.get? i = some r ∧ ranges.get? (i + 1) = some r2 ∧
    r.size = 0x1000 ∧ r2.size = 0xFFFFF000

lemma pairAt_cons_succ (r : MemoryRange) (l : List MemoryRange) (i : Nat) :
    pairAt (r :: l) (i + 1) ↔ pairAt l i := by
  simp [pairAt]

lemma pairAt_cons_cons_zero (r r2 : MemoryRange) (l : List MemoryRange) :
    pairAt (r :: r2 :: l) 0 ↔ r.size = 0x1000 ∧ r2.size = 0xFFFFF000 := by
  simp [pairAt]

lemma pairAt_singleton (r : MemoryRange) (i : Nat) : ¬ pairAt [r] i := by
  rintro ⟨x, y, hx, hy, _, _⟩
  rcases i with _ | i <;> simp at hy

lemma scanLoop_none_iff :
    ∀ (rest : List MemoryRange) (range : MemoryRange),
      scanLoop range rest = none ↔ ∀ i, ¬ pairAt (range :: rest) i
  | [], range => by
    simp only [scanLoop, true_iff]
    exact pairAt_singleton range
  | range2 :: rest2, range => by
    rw [scanLoop]
    by_cases h1 : range.size = 0x1000
    · by_cases h2 : range2.size = 0xFFFFF000
      · simp only [if_pos h1, if_pos h2]
        constructor
        · intro h; exact absurd h (by simp)
        · intro h
          exact absurd ((pairAt_cons_cons_zero range range2 rest2).2 ⟨h1, h2⟩) (h 0)
      · rw [if_pos h1, if_neg h2, scanLoop_none_iff rest2 range2]
        constructor
        · intro h i
          rcases i with _ | i
          · rw [pairAt_cons_cons_zero]; rintro ⟨_, hc⟩; exact h2 hc
          · rw [pairAt_cons_succ]; exact h i
        · intro h i; exact (pairAt_cons_succ range (range2 :: rest2) i).mpr.mt (h (i + 1))
    · rw [if_neg h1, scanLoop_none_iff rest2 range2]
      constructor
      · intro h i
        rcases i with _ | i
        · rw [pairAt_cons_cons_zero]; rintro ⟨hc, _⟩; exact h1 hc
        · rw [pairAt_cons_succ]; exact h i
      · intro h i; exact (pairAt_cons_succ range (range2 :: rest2) i).mpr.mt (h (i + 1))

lemma scanLoop_some_first :
    ∀ (rest : List MemoryRange) (range : MemoryRange) (m : Memory),
      scanLoop range rest = some m →
      ∃ i r, pairAt (range :: rest) i ∧ (∀ j, j < i → ¬ pairAt (range :: rest) j) ∧
        (range :: rest).get? i = some r ∧ m.base_client_ptr = r.address
  | [], _, _ => by simp [scanLoop]
  | range2 :: rest2, range, m => by
    rw [scanLoop]
    by_cases h1 : range.size = 0x1000
    · by_cases h2 : range2.size = 0xFFFFF000
      · simp only [if_pos h1, if_pos h2, Option.some_inj]
        intro hm
        refine ⟨0, range, (pairAt_cons_cons_zero range range2 rest2).2 ⟨h1, h2⟩,
          fun j hj => absurd hj (by omega), rfl, ?_⟩
        rw [← hm]
      · rw [if_pos h1, if_neg h2]
        intro hm
        obtain ⟨i, r, hp, hfirst, hget, haddr⟩ := scanLoop_some_first rest2 range2 m hm
        refine ⟨i + 1, r, (pairAt_cons_succ range (range2 :: rest2) i).2 hp, ?_, hget, haddr⟩
        intro j hj
        rcases j with _ | j
        · rw [pairAt_cons_cons_zero]; rintro ⟨_, hc⟩; exact h2 hc
        · rw [pairAt_cons_succ]; exact hfirst j (by omega)
    · rw [if_neg h1]
      intro hm
      obtain ⟨i, r, hp, hfirst, hget, haddr⟩ := scanLoop_some_first rest2 range2 m hm
      refine ⟨i + 1, r, (pairAt_cons_succ range (range2 :: rest2) i).2 hp, ?_, hget, haddr⟩
      intro j hj
      rcases j with _ | j
      · rw [pairAt_cons_cons_zero]; rintro ⟨hc, _⟩; exact h1 hc
      · rw [pairAt_cons_succ]; exact hfirst j (by omega)

/-- C3: one attempt of `Memory::init` scans the enumerated regions in
order and succeeds exactly when some region of size `0x1000` is immediately
followed by a region of size `0xFFFFF000`; the anchor returned is the start
address of the first region of the first such pair.  When no such pair
exists the attempt yields no result (the external `retry` combinator then
re-runs it on the next scheduling opportunity). -/
theorem memory_init_finds_adjacent_pair :
    (∀ ranges : List MemoryRange,
      (∃ m, Memory.init ranges = some m) ↔ ∃ i, pairAt ranges i)
    ∧ (∀ (ranges : List MemoryRange) (m : Memory),
      Memory.init ranges = some m →
      ∃ i r, pairAt ranges i ∧ (∀ j, j < i → ¬ pairAt ranges j) ∧
        ranges.get? i = some r ∧ m.base_client_ptr = r.address) := by
  constructor
  · intro ranges
    cases ranges with
    | nil =>
      simp only [Memory.init]
      constructor
      · rintro ⟨m, hm⟩; exact absurd hm (by simp)
      · rintro ⟨i, x, y, hx, _⟩; simp at hx
    | cons range rest =>
      rw [Memory.init]
      constructor
      · rintro ⟨m, hm⟩
        by_contra hno
        push_neg at hno
        rw [(scanLoop_none_iff rest range).2 hno] at hm
        exact absurd hm (by simp)
      · rintro ⟨i, hi⟩
        cases hm : scanLoop range rest with
        | none => exact absurd hi ((scanLoop_none_iff rest range).1 hm i)
        | some m => exact ⟨m, rfl⟩
  · intro ranges m hm
    cases ranges with
    | nil => exact absurd hm (by simp [Memory.init])
    | cons range rest => exact scanLoop_some_first rest range m hm

/-- A concrete region enumeration holding the signature pair at index 1. -/
def rangesEx : List MemoryRange :=
  [⟨0xAAAA0000, 0x2000⟩, ⟨0xBBBB0000, 0x1000⟩, ⟨0xBBBB1000, 0xFFFFF000⟩]

/-- Witness for C3: on a concrete enumeration holding the signature pair,
`Memory::init` finds the first pair and returns its first region's start
address. -/
theorem memory_init_finds_adjacent_pair_witness :
    ∃ i r,
      pairAt rangesEx i ∧
      (∀ j, j < i → ¬ pairAt rangesEx j) ∧
      rangesEx.get? i = some r ∧
      (Memory.mk 0xBBBB0000).base_client_ptr = r.address :=
  memory_init_finds_adjacent_pair.2 rangesEx ⟨0xBBBB0000⟩ rfl

/-- `asr::time::Duration`, modelled as a whole number of milliseconds
(every duration the code constructs is a whole number of milliseconds). -/
abbrev Duration := Int

/-- `Duration::ZERO`. -/
def Duration.ZERO : Duration := 0

/-- `Duration::milliseconds`. -/
def Duration.milliseconds (x : Int) : Duration := x

/-- The `as i64` cast of an `f32`, on the rational model: truncation toward
zero. -/
def asI64 (q : ℚ) : Int := Int.tdiv q.num q.den

/-- Modelled from the spec: the watcher's (previous, current) pair.  The
`asr::watcher::Watcher` type is an external dependency, not part of this
repository's sources; per the spec, each update shifts current into
previous and installs the new current value, and after the first update
only the current value is defined, so the previous value is optional. -/
structure WPair (T : Type) where
  previous : Option T
  current : T
deriving DecidableEq

/-- Modelled from the spec: `asr::watcher::Watcher`, holding an optional
(previous, current) pair; the pair is absent before the first update. -/
structure Watcher (T : Type) where
  pair : Option (WPair T)
deriving DecidableEq

/-- `Watcher::default()`: no pair yet. -/
def Watcher.default (T : Type) : Watcher T := ⟨none⟩

/-- Modelled from the spec: `Watcher::update_infallible` always succeeds,
shifts the old current value into the previous slot and installs the new
current value unconditionally. -/
def Watcher.update_infallible {T : Type} (w : Watcher T) (value : T) :
    Watcher T :=
  { pair := some { previous := w.pair.map (fun p => p.current), current := value } }

/-- The per-attachment mutable state (`struct Watchers`). -/
structure Watchers where
  is_loading : Watcher Bool
  igt : Watcher Duration
  igt_buffer : Duration

/-- `Watchers::default()`. -/
def Watchers.default : Watchers :=
  { is_loading := Watcher.default Bool
    igt := Watcher.default Duration
    igt_buffer := Duration.ZERO }

/-- `struct Settings`: the single persisted boolean option. -/
structure Settings where
  igt : Bool

/-- `asr::timer::TimerState` (the states this code distinguishes). -/
inductive TimerState where
  | NotRunning
  | Running
  | Paused
deriving DecidableEq

/-- The loading-state cell of `update_loop`: a 32-bit path read, defaulting
to 0 on failure, then converted from big-endian. -/
def readLoadingState (game : Process) (memory : Memory) : Nat :=
  fromBe32
    ((read_host_path game game.readU32 memory.base_client_ptr
      [0x833678A0, 0x4, 0xE0, 0x13C]).getD 0)

/-- The stuck-in-loading byte of `update_loop`: nonzero means stuck; a
failed read defaults to `false`. -/
def readStuckFlag (game : Process) (memory : Memory) : Bool :=
  ((read_host_path game game.readU8 memory.base_client_ptr
    [0x83367A4C]).map (fun val => val != 0)).getD false

/-- The combined boolean fed to the `is_loading` watcher each tick. -/
def loadingFed (game : Process) (memory : Memory) : Bool :=
  readStuckFlag game memory ||
    (readLoadingState game memory != 0 && readLoadingState game memory != 2)

/-- The stage-id byte of `update_loop`; a failed read defaults to 0. -/
def readStage (game : Process) (memory : Memory) : Nat :=
  (read_host_path game game.readU8 memory.base_client_ptr
    [0x83367900, 0x8, 0xAC, 0x0]).getD 0

/-- The raw in-game clock derivation of `update_loop` when the stage is
nonzero: read an `f32` path, convert from big-endian; NaN or negative
values (and failed reads) give a zero duration, a valid value `v` gives
`(v * 100) as i64 * 10` milliseconds. -/
def readClockDuration (game : Process) (memory : Memory) : Duration :=
  (((read_host_path game game.readF32 memory.base_client_ptr
      [0x83367900, 0x8, 0x5C]).map (fun val => val.from_be)).map
    (fun val =>
      if val.isNan || decide (val.val < 0) then Duration.ZERO
      else Duration.milliseconds (asI64 (val.val * 100) * 10))).getD
    Duration.ZERO

/-- The derived in-game-clock duration for the tick: zero when the stage id
is 0, otherwise the scaled clock value. -/
def readIgt (game : Process) (memory : Memory) : Duration :=
  if readStage game memory == 0 then Duration.ZERO
  else readClockDuration game memory

/-- `update_loop`: perform the raw reads, feed the combined loading flag
into the `is_loading` watcher, derive the clock duration, add the previous
current value to the accumulated buffer when the new value regresses, and
feed the new value into the `igt` watcher. -/
def update_loop (game : Process) (memory : Memory) (watchers : Watchers) :
    Watchers :=
  let watchers :=
    { watchers with
      is_loading := watchers.is_loading.update_infallible (loadingFed game memory) }
  let igt := readIgt game memory
  let old_igt := (watchers.igt.pair.map (fun val => val.current)).getD Duration.ZERO
  let watchers :=
    if igt < old_igt then
      { watchers with igt_buffer := watchers.igt_buffer + old_igt }
    else watchers
  { watchers with igt := watchers.igt.update_infallible igt }

/-- `start`: per-title trigger, unimplemented. -/
def start (_watchers : Watchers) (_settings : Settings) : Bool := false

/-- `split`: per-title trigger, unimplemented. -/
def split (_watchers : Watchers) (_settings : Settings) : Bool := false

/-- `reset`: per-title trigger, unimplemented. -/
def reset (_watchers : Watchers) (_settings : Settings) : Bool := false

/-- `is_loading`: with the IGT setting enabled always `some true`,
otherwise the loading watcher's current value (or nothing before the first
update). -/
def is_loading (watchers : Watchers) (settings : Settings) : Option Bool :=
  match settings.igt with
  | true => some true
  | false => watchers.is_loading.pair.map (fun val => val.current)

/-- `game_time`: nothing unless the IGT setting is enabled; when enabled,
the clock watcher's current value plus the accumulated buffer. -/
def game_time (watchers : Watchers) (settings : Settings) (_memory : Memory) :
    Option Duration :=
  match settings.igt with
  | false => none
  | true => watchers.igt.pair.map (fun val => val.current + watchers.igt_buffer)

/-- One iteration of the inner loop of `main`, restricted to its effect on
the per-attachment state: run `update_loop`, then — the Running/Paused
branch only issues external timer commands — if the observed timer state is
NotRunning, zero the accumulated buffer (the `start` trigger is always
`false`, so nothing further happens in that branch). -/
def tick (game : Process) (memory : Memory) (_settings : Settings)
    (state : TimerState) (watchers : Watchers) : Watchers :=
  let watchers := update_loop game memory watchers
  if state = TimerState.NotRunning then
    { watchers with igt_buffer := Duration.ZERO }
  else watchers

lemma update_loop_is_loading_eq (game : Process) (memory : Memory)
    (watchers : Watchers) :
    (update_loop game memory watchers).is_loading =
      watchers.is_loading.update_infallible (loadingFed game memory) := by
  simp only [update_loop]
  split <;> rfl

lemma update_loop_igt_eq (game : Process) (memory : Memory)
    (watchers : Watchers) :
    (update_loop game memory watchers).igt =
      watchers.igt.update_infallible (readIgt game memory) := by
  simp only [update_loop]
  split <;> rfl

lemma update_loop_buffer_eq (game : Process) (memory : Memory)
    (watchers : Watchers) :
    (update_loop game memory watchers).igt_buffer =
      if readIgt game memory <
          (watchers.igt.pair.map (fun val => val.current)).getD Duration.ZERO then
        watchers.igt_buffer +
          (watchers.igt.pair.map (fun val => val.current)).getD Duration.ZERO
      else watchers.igt_buffer := by
  simp only [update_loop]
  split <;> rfl

/-- A concrete attachment anchor for witnesses. -/
def memEx : Memory := ⟨0x10000000⟩

/-- C4: each tick, the boolean fed to the `is_loading` watcher is the
stuck-flag (nonzero byte) OR-ed with (loading-state nonzero and not 2); it
is `true` exactly when the stuck flag holds or the loading state is neither
0 nor 2, and `false` otherwise; a failed loading-state read defaults to 0
and a failed stuck-flag read defaults to `false`. -/
theorem update_loop_loading_flag (game : Process) (memory : Memory)
    (watchers : Watchers) :
    ((update_loop game memory watchers).is_loading.pair.map (fun p => p.current) =
      some (readStuckFlag game memory ||
        (readLoadingState game memory != 0 && readLoadingState game memory != 2)))
    ∧ (((update_loop game memory watchers).is_loading.pair.map (fun p => p.current)
          = some true) ↔
        (readStuckFlag game memory = true ∨
          (readLoadingState game memory ≠ 0 ∧ readLoadingState game memory ≠ 2)))
    ∧ (read_host_path game game.readU32 memory.base_client_ptr
        [0x833678A0, 0x4, 0xE0, 0x13C] = none → readLoadingState game memory = 0)
    ∧ (read_host_path game game.readU8 memory.base_client_ptr
        [0x83367A4C] = none → readStuckFlag game memory = false) := by
  have hfed : (update_loop game memory watchers).is_loading.pair.map
      (fun p => p.current) = some (loadingFed game memory) := by
    rw [update_loop_is_loading_eq, Watcher.update_infallible]
    rfl
  refine ⟨?_, ?_, ?_, ?_⟩
  · rw [hfed, loadingFed]
  · rw [hfed, Option.some_inj, loadingFed]
    simp [Bool.or_eq_true, Bool.and_eq_true, bne_iff_ne]
  · intro h
    rw [readLoadingState, h]
    rfl
  · intro h
    rw [readStuckFlag, h]
    rfl

/-- Witness for C4: on a process all of whose reads fail, the loading state
defaults to 0 and the stuck flag to `false`, so the fed boolean is
`false`. -/
theorem update_loop_loading_flag_witness :
    readLoadingState deadProcess memEx = 0 ∧
      readStuckFlag deadProcess memEx = false ∧
      (update_loop deadProcess memEx Watchers.default).is_loading.pair.map
        (fun p => p.current) = some false :=
  ⟨(update_loop_loading_flag deadProcess memEx Watchers.default).2.2.1 rfl,
   (update_loop_loading_flag deadProcess memEx Watchers.default).2.2.2 rfl,
   (update_loop_loading_flag deadProcess memEx Watchers.default).1⟩

/-- C5: the derived in-game-clock duration fed to the `igt` watcher is zero
whenever the stage id is 0 (including when the stage read failed, which
defaults to 0); when the stage is nonzero and the raw clock value `v` was
read successfully and is neither NaN nor negative, it is
`(v * 100) as i64 * 10` milliseconds; a failed, NaN, or negative clock read
yields a zero duration. -/
theorem update_loop_clock_derivation (game : Process) (memory : Memory)
    (watchers : Watchers) :
    ((update_loop game memory watchers).igt.pair.map (fun p => p.current) =
      some (readIgt game memory))
    ∧ (readStage game memory = 0 → readIgt game memory = Duration.ZERO)
    ∧ (read_host_path game game.readU8 memory.base_client_ptr
        [0x83367900, 0x8, 0xAC, 0x0] = none → readStage game memory = 0)
    ∧ (∀ v : F32, readStage game memory ≠ 0 →
        read_host_path game game.readF32 memory.base_client_ptr
          [0x83367900, 0x8, 0x5C] = some v →
        v.isNan = false → ¬ v.val < 0 →
        readIgt game memory = Duration.milliseconds (asI64 (v.val * 100) * 10))
    ∧ (readStage game memory ≠ 0 →
        read_host_path game game.readF32 memory.base_client_ptr
          [0x83367900, 0x8, 0x5C] = none →
        readIgt game memory = Duration.ZERO)
    ∧ (∀ v : F32, readStage game memory ≠ 0 →
        read_host_path game game.readF32 memory.base_client_ptr
          [0x83367900, 0x8, 0x5C] = some v →
        (v.isNan = true ∨ v.val < 0) →
        readIgt game memory = Duration.ZERO) := by
  refine ⟨?_, ?_, ?_, ?_, ?_, ?_⟩
  · rw [update_loop_igt_eq, Watcher.update_infallible]
    rfl
  · intro h
    rw [readIgt, if_pos (by simpa using h)]
  · intro h
    rw [readStage, h]
    rfl
  · intro v hstage hread hnan hneg
    rw [readIgt, if_neg (by simpa using hstage), readClockDuration, hread]
    simp [F32.from_be, hnan, hneg]
  · intro hstage hread
    rw [readIgt, if_neg (by simpa using hstage), readClockDuration, hread]
    rfl
  · intro v hstage hread hbad
    rw [readIgt, if_neg (by simpa using hstage), readClockDuration, hread]
    rcases hbad with hnan | hneg
    · simp [F32.from_be, hnan]
    · simp [F32.from_be, hneg]

/-- A process whose reads succeed: hop pointers are 0, bytes are 1, and the
clock cell holds 3 (seconds). -/
def liveProcess : Process :=
  { readU32 := fun _ => some 0
    readU8 := fun _ => some 1
    readF32 := fun _ => some ⟨false, (3 : ℚ)⟩ }

/-- Witness for C5: with stage 1 and clock value 3 the derived duration is
`trunc(3 * 100) * 10 = 3000` milliseconds. -/
theorem update_loop_clock_derivation_witness :
    readIgt liveProcess memEx =
      Duration.milliseconds (asI64 ((3 : ℚ) * 100) * 10) ∧
      readIgt liveProcess memEx = (3000 : Int) := by
  have h := (update_loop_clock_derivation liveProcess memEx Watchers.default).2.2.2.1
    ⟨false, (3 : ℚ)⟩ (by decide) rfl rfl (by norm_num)
  refine ⟨h, ?_⟩
  rw [h, Duration.milliseconds]
  have h1 : (3 : ℚ) * 100 = 300 := by norm_num
  rw [show (⟨false, (3 : ℚ)⟩ : F32).val = (3 : ℚ) from rfl, h1, asI64]
  simp

/-- C6: each tick, before the `igt` watcher is updated, the accumulated
buffer is increased by the watcher's previous current value exactly when
the newly derived duration is strictly smaller than it; the watcher is then
updated with the raw new duration (the buffer is kept separate, not baked
into the stored value); with previous current 500 ms, new duration 300 ms
and a nonnegative buffer, the buffer ends up at least 500 ms. -/
theorem update_loop_regression_buffer (game : Process) (memory : Memory)
    (watchers : Watchers) :
    (readIgt game memory <
        (watchers.igt.pair.map (fun p => p.current)).getD Duration.ZERO →
      (update_loop game memory watchers).igt_buffer =
        watchers.igt_buffer +
          (watchers.igt.pair.map (fun p => p.current)).getD Duration.ZERO)
    ∧ (¬ readIgt game memory <
          (watchers.igt.pair.map (fun p => p.current)).getD Duration.ZERO →
        (update_loop game memory watchers).igt_buffer = watchers.igt_buffer)
    ∧ ((update_loop game memory watchers).igt.pair =
        some ⟨watchers.igt.pair.map (fun p => p.current), readIgt game memory⟩)
    ∧ ((watchers.igt.pair.map (fun p => p.current)).getD Duration.ZERO = 500 →
        readIgt game memory = 300 → 0 ≤ watchers.igt_buffer →
        500 ≤ (update_loop game memory watchers).igt_buffer) := by
  refine ⟨?_, ?_, ?_, ?_⟩
  · intro h
    rw [update_loop_buffer_eq, if_pos h]
  · intro h
    rw [update_loop_buffer_eq, if_neg h]
  · rw [update_loop_igt_eq, Watcher.update_infallible]
  · intro h500 h300 hbuf
    rw [update_loop_buffer_eq, h500, h300, if_pos (by norm_num)]
    linarith

/-- A watcher state whose clock watcher currently holds 500 ms and whose
buffer is empty. -/
def watchers500 : Watchers :=
  { is_loading := Watcher.default Bool
    igt := ⟨some ⟨none, (500 : Int)⟩⟩
    igt_buffer := 0 }

/-- A process whose reads succeed, whose stage byte is 1 and whose clock
cell holds 0, deriving a 0 ms duration — a regression from a stored
500 ms. -/
def processZeroClock : Process :=
  { readU32 := fun _ => some 0
    readU8 := fun _ => some 1
    readF32 := fun _ => some ⟨false, (0 : ℚ)⟩ }

/-- Witness for C6: from stored current 500 ms and derived duration 0 ms
(a regression), the buffer immediately afterwards is at least 500 ms. -/
theorem update_loop_regression_buffer_witness :
    (update_loop processZeroClock memEx watchers500).igt_buffer =
      watchers500.igt_buffer + 500 ∧
      0 ≤ (update_loop processZeroClock memEx watchers500).igt_buffer :=
  have h0 : readIgt processZeroClock memEx = 0 := by
    have h := (update_loop_clock_derivation processZeroClock memEx
        watchers500).2.2.2.1 ⟨false, (0 : ℚ)⟩ (by decide) rfl rfl (by norm_num)
    rw [h, Duration.milliseconds]
    norm_num [asI64]
  have hlt : readIgt processZeroClock memEx <
      (watchers500.igt.pair.map (fun p => p.current)).getD Duration.ZERO := by
    rw [h0]; decide
  ⟨(update_loop_regression_buffer processZeroClock memEx watchers500).1 hlt,
   by
    rw [(update_loop_regression_buffer processZeroClock memEx watchers500).1 hlt]
    decide⟩

lemma asI64_nonneg {q : ℚ} (h : 0 ≤ q) : 0 ≤ asI64 q := by
  rw [asI64]
  exact Int.tdiv_nonneg (Rat.num_nonneg.2 h) (Int.ofNat_nonneg q.den)

lemma readIgt_nonneg (game : Process) (memory : Memory) :
    0 ≤ readIgt game memory := by
  rw [readIgt]
  split
  · exact le_refl 0
  · rw [readClockDuration]
    cases hread : read_host_path game game.readF32 memory.base_client_ptr
        [0x83367900, 0x8, 0x5C] with
    | none => exact le_refl 0
    | some v =>
      simp only [Option.map_some', F32.from_be, Option.getD_some]
      split
      · exact le_refl 0
      · rename_i hcond
        rw [Duration.milliseconds]
        simp only [Bool.or_eq_true, decide_eq_true_eq, not_or, Bool.not_eq_true] at hcond
        have hv : (0 : ℚ) ≤ v.val * 100 := by
          have := not_lt.1 hcond.2
          positivity
        exact mul_nonneg (asI64_nonneg hv) (by norm_num)

lemma update_loop_buffer_mono (game : Process) (memory : Memory)
    (watchers : Watchers) :
    watchers.igt_buffer ≤ (update_loop game memory watchers).igt_buffer := by
  rw [update_loop_buffer_eq]
  split
  · rename_i h
    have h0 : (0 : Int) ≤
        (watchers.igt.pair.map (fun val => val.current)).getD Duration.ZERO :=
      le_trans (readIgt_nonneg game memory) (le_of_lt h)
    linarith
  · exact le_refl _

/-- C7: on any tick whose evaluation observes the external timer as
NotRunning the accumulated buffer becomes exactly 0, and on every other
tick the buffer never decreases. -/
theorem tick_buffer_policy (game : Process) (memory : Memory)
    (settings : Settings) (state : TimerState) (watchers : Watchers) :
    (state = TimerState.NotRunning →
      (tick game memory settings state watchers).igt_buffer = 0)
    ∧ (state ≠ TimerState.NotRunning →
      watchers.igt_buffer ≤ (tick game memory settings state watchers).igt_buffer) := by
  constructor
  · intro h
    rw [tick]
    simp only [if_pos h]
    rfl
  · intro h
    rw [tick]
    simp only [if_neg h]
    exact update_loop_buffer_mono game memory watchers

/-- Witness for C7: concretely, a NotRunning tick zeroes the buffer and a
Running tick does not decrease it. -/
theorem tick_buffer_policy_witness :
    (tick processZeroClock memEx ⟨false⟩ TimerState.NotRunning watchers500).igt_buffer
      = 0 ∧
    watchers500.igt_buffer ≤
      (tick processZeroClock memEx ⟨false⟩ TimerState.Running watchers500).igt_buffer :=
  ⟨(tick_buffer_policy processZeroClock memEx ⟨false⟩ TimerState.NotRunning
      watchers500).1 rfl,
   (tick_buffer_policy processZeroClock memEx ⟨false⟩ TimerState.Running
      watchers500).2 (by decide)⟩

/-- C8: calling `update_infallible` with `v1, v2, v3` in sequence on a
fresh watcher yields, after the third call, previous = `v2` and
current = `v3`; the pair is absent before the first update, and after the
first call only the current value is defined. -/
theorem watcher_update_sequence (T : Type) (v1 v2 v3 : T) :
    ((((Watcher.default T).update_infallible v1).update_infallible
        v2).update_infallible v3).pair = some ⟨some v2, v3⟩
    ∧ (Watcher.default T).pair = none
    ∧ ((Watcher.default T).update_infallible v1).pair = some ⟨none, v1⟩ :=
  ⟨rfl, rfl, rfl⟩

/-- C9: `game_time` returns nothing whenever the IGT setting is disabled;
when the setting is enabled it returns the clock watcher's current value
plus the accumulated buffer, or nothing if the clock watcher has not been
observed yet. -/
theorem game_time_characterization (watchers : Watchers) (settings : Settings)
    (memory : Memory) :
    (settings.igt = false → game_time watchers settings memory = none)
    ∧ (settings.igt = true →
        game_time watchers settings memory =
          watchers.igt.pair.map (fun p => p.current + watchers.igt_buffer))
    ∧ (settings.igt = true → watchers.igt.pair = none →
        game_time watchers settings memory = none) := by
  refine ⟨?_, ?_, ?_⟩
  · intro h
    rw [game_time, h]
  · intro h
    rw [game_time, h]
  · intro h hpair
    rw [game_time, h, hpair]
    rfl

/-- Witness for C9: with the setting disabled the result is nothing, and
with it enabled but no observation yet the result is also nothing. -/
theorem game_time_characterization_witness :
    game_time Watchers.default ⟨false⟩ memEx = none ∧
      game_time Watchers.default ⟨true⟩ memEx = none :=
  ⟨(game_time_characterization Watchers.default ⟨false⟩ memEx).1 rfl,
   (game_time_characterization Watchers.default ⟨true⟩ memEx).2.2 rfl rfl⟩

/-- C10: after `update_loop` has run, both watcher pairs are populated (and
stay populated after any further tick, since every tick updates both
watchers unconditionally); consequently in the decision phase `is_loading`
never returns nothing in either settings mode, and with the IGT setting
enabled `game_time` never returns nothing. -/
theorem watchers_populated_after_update (game : Process) (memory : Memory)
    (watchers : Watchers) (settings : Settings) (state : TimerState) :
    ((update_loop game memory watchers).is_loading.pair.isSome = true)
    ∧ ((update_loop game memory watchers).igt.pair.isSome = true)
    ∧ ((tick game memory settings state watchers).is_loading.pair.isSome = true)
    ∧ ((tick game memory settings state watchers).igt.pair.isSome = true)
    ∧ ((is_loading (update_loop game memory watchers) settings).isSome = true)
    ∧ (settings.igt = true →
        (game_time (update_loop game memory watchers) settings memory).isSome
          = true) := by
  have h1 : (update_loop game memory watchers).is_loading.pair.isSome = true := by
    rw [update_loop_is_loading_eq, Watcher.update_infallible]
    rfl
  have h2 : (update_loop game memory watchers).igt.pair.isSome = true := by
    rw [update_loop_igt_eq, Watcher.update_infallible]
    rfl
  have htick_loading : (tick game memory settings state watchers).is_loading =
      (update_loop game memory watchers).is_loading := by
    rw [tick]
    split <;> rfl
  have htick_igt : (tick game memory settings state watchers).igt =
      (update_loop game memory watchers).igt := by
    rw [tick]
    split <;> rfl
  refine ⟨h1, h2, by rw [htick_loading]; exact h1, by rw [htick_igt]; exact h2,
    ?_, ?_⟩
  · rw [is_loading]
    cases hs : settings.igt with
    | true => rfl
    | false => simpa using h1
  · intro hs
    rw [game_time, hs]
    simpa using h2

/-- Witness for C10: with the IGT setting enabled, `game_time` on freshly
updated watchers concretely returns a value. -/
theorem watchers_populated_after_update_witness :
    (game_time (update_loop deadProcess memEx Watchers.default) ⟨true⟩
      memEx).isSome = true :=
  (watchers_populated_after_update deadProcess memEx Watchers.default ⟨true⟩
    TimerState.Running).2.2.2.2.2 rfl
